import Mathlib

/-!
# Verification of the NTU vacancy-alert monitoring engine

Shallow embedding of the core of the repository:

* `src/vacancy_parser.py` — the HTML table parser (`VacancyParser.parse_vacancy_html`,
  `VacancyParser._parse_number`);
* `src/vacancy_api.py` — the availability client (`VacancyApiClient.get_index_vacancy`);
* `src/vacancy_checker.py` — the monitoring scheduler (`VacancyChecker.check_all_alerts`);
* `src/database.py` — the history-table operations the scheduler calls
  (`Database.update_alert_check`, `Database.mark_notification_sent`).

Markup documents are abstracted to the table that `soup.find('table', ...)` would
return: `none` when no table is found, otherwise the list of rows, each row the
list of its cells' stripped texts.  Network calls are abstracted to function
parameters.  Database effects are made explicit as an event trace plus an
explicit history list.
-/

namespace VacancyAlert

/-! ## Python numeric primitives

`VacancyParser._parse_number` calls Python's `str.strip` and `int`.  We model
`str.strip` (whitespace stripping, including the non-breaking space U+00A0,
which Python treats as whitespace) and CPython's `int` on ASCII decimal
literals: an optional sign followed by digits, with single underscores allowed
between digits. -/

/-- Characters removed by Python's `str.strip()` (the ASCII whitespace set plus
the non-breaking space U+00A0). -/
def pyIsSpace (c : Char) : Bool :=
  c = ' ' || c = '\t' || c = '\n' || c = '\r' || c = '\x0b' || c = '\x0c' || c = '\xa0'

/-- Python `text.strip()`: drop leading and trailing whitespace. -/
def pyStrip (s : String) : String :=
  ⟨((s.data.dropWhile pyIsSpace).reverse.dropWhile pyIsSpace).reverse⟩

/-- Numeric value of an ASCII digit character. -/
def digitVal (c : Char) : Nat := c.toNat - 48

/-- Continue parsing a CPython decimal literal after at least one digit has
been read: further digits, with single underscores allowed between digits. -/
def pyDigitsGo (acc : Nat) : List Char → Option Nat
  | [] => some acc
  | c :: cs =>
    if c.isDigit then pyDigitsGo (10 * acc + digitVal c) cs
    else if c = '_' then
      match cs with
      | [] => none
      | d :: ds => if d.isDigit then pyDigitsGo (10 * acc + digitVal d) ds else none
    else none

/-- Parse an unsigned CPython decimal literal (nonempty, must start with a digit). -/
def pyUnsigned : List Char → Option Nat
  | [] => none
  | c :: cs => if c.isDigit then pyDigitsGo (digitVal c) cs else none

/-- CPython `int` on an already-stripped list of characters: optional sign,
then an unsigned decimal literal; `none` models the `ValueError` path. -/
def pyIntList : List Char → Option Int
  | [] => none
  | c :: cs =>
    if c = '-' then (pyUnsigned cs).map (fun n => -(Int.ofNat n))
    else if c = '+' then (pyUnsigned cs).map Int.ofNat
    else (pyUnsigned (c :: cs)).map Int.ofNat

/-- CPython `int(s)` on an already-stripped string. -/
def pyInt (s : String) : Option Int :=
  pyIntList s.data

/-- `VacancyParser._parse_number` (src/vacancy_parser.py lines 107–125): strip
the text; the empty string and the placeholders `&nbsp;`, `-`, `N/A` become 0;
otherwise `int(text)`, with any `ValueError` also becoming 0.  Total: the
`try/except` means it never raises. -/
def parse_number (text : String) : Int :=
  let t := pyStrip text
  if t = "" || t = "&nbsp;" || t = "-" || t = "N/A" then 0
  else
    match pyInt t with
    | some n => n
    | none => 0

example : parse_number "5" = 5 := by decide
example : parse_number " 12 " = 12 := by decide
example : parse_number "" = 0 := by decide
example : parse_number "-" = 0 := by decide
example : parse_number "N/A" = 0 := by decide
example : parse_number "abc" = 0 := by decide
example : parse_number "-5" = -5 := by decide

/-! ## The table parser (`VacancyParser.parse_vacancy_html`)

The BeautifulSoup scan is abstracted away: the input is the table that
`soup.find('table', border=True)` would return — `none` if no table is found,
otherwise the list of its `tr` rows, each row the list of stripped `td` cell
texts.  The first row (the header) is skipped by the code (`[1:]`). -/

/-- One meeting entry (a dict appended to `current_index['classes']`). -/
structure ClassInfo where
  type : String
  group : String
  day : String
  time : String
  venue : String
deriving Repr, DecidableEq

/-- One parsed section (a dict appended to `indexes`). -/
structure IndexInfo where
  index : String
  vacancy : Int
  waitlist : Int
  classes : List ClassInfo
deriving Repr, DecidableEq

/-- `cells[i].get_text(strip=True)`; rows reaching the cell reads always have
at least 8 cells, so the default is never hit on the code path. -/
def cellText (row : List String) (i : Nat) : String := row.getD i ""

/-- The header test `if index_num and index_num not in ['', '&nbsp;']`
(truthiness of a Python string = nonemptiness). -/
def isNewIndexCell (s : String) : Bool := !(s == "") && !(s == "&nbsp;")

/-- Appending a class dict to `current_index['classes']`.  In the Python code
`current_index` aliases the last element of `indexes`, so the mutation shows up
in the last element of the accumulated list. -/
def appendClassToLast (acc : List IndexInfo) (c : ClassInfo) : List IndexInfo :=
  match acc.getLast? with
  | none => acc
  | some last => acc.dropLast ++ [{ last with classes := last.classes ++ [c] }]

/-- The fresh `current_index` dict built from a header row
(src/vacancy_parser.py lines 83–88): identifier from cell 0, leniently
parsed counts from cells 1 and 2, no classes yet. -/
def newSection (row : List String) : IndexInfo :=
  { index := cellText row 0, vacancy := parse_number (cellText row 1),
    waitlist := parse_number (cellText row 2), classes := [] }

/-- The class-session dict built from cells 3–7 of a row
(src/vacancy_parser.py lines 93–99). -/
def rowClass (row : List String) : ClassInfo :=
  { type := cellText row 3, group := cellText row 4, day := cellText row 5,
    time := cellText row 6, venue := cellText row 7 }

/-- One iteration of the row loop of `parse_vacancy_html`
(src/vacancy_parser.py lines 62–99).  `acc` is the `indexes` list built so
far; `current_index` is `none` exactly when `acc = []` (every created
`current_index` is appended to `indexes` immediately).  A row with fewer
than 8 cells is skipped; a header row (non-empty leading cell) opens a new
section; then, if a section is open and the class-type cell is non-empty,
the row's class session is appended to the current (= last) section. -/
def processRow (acc : List IndexInfo) (row : List String) : List IndexInfo :=
  if row.length < 8 then acc
  else
    let acc2 := if isNewIndexCell (cellText row 0) then acc ++ [newSection row] else acc
    if acc2 ≠ [] ∧ cellText row 3 ≠ "" then
      appendClassToLast acc2 (rowClass row)
    else acc2

/-- `VacancyParser.parse_vacancy_html` (src/vacancy_parser.py lines 47–105) on
the abstracted document.  `none` input models "no vacancy table found", which
the code answers with the *successful* empty list (line 54).  The `Option`
result keeps the code's shape (`None` would signal a parse exception; the row
loop itself never raises). -/
def parse_vacancy_html (table? : Option (List (List String))) : Option (List IndexInfo) :=
  match table? with
  | none => some []
  | some rows => some ((rows.drop 1).foldl processRow [])

/-- Total number of meeting entries across all parsed sections. -/
def totalMeetings (acc : List IndexInfo) : Nat :=
  (acc.map (fun s => s.classes.length)).sum

example :
    parse_vacancy_html
      (some [["hdr", "h", "h", "h", "h", "h", "h", "h"],
             ["10001", "5", "2", "LEC", "G1", "MON", "0830", "LT1"],
             ["", "", "", "TUT", "G2", "TUE", "0930", "TR5"]]) =
    some [{ index := "10001", vacancy := 5, waitlist := 2,
            classes := [{ type := "LEC", group := "G1", day := "MON", time := "0830", venue := "LT1" },
                        { type := "TUT", group := "G2", day := "TUE", time := "0930", venue := "TR5" }] }] := by
  decide

/-! ## The availability client (`VacancyApiClient`)

`get_course_vacancies` performs network I/O; it is abstracted to a function
parameter returning either the parsed section list or one of the tagged
failures the code produces.  `get_index_vacancy` is then pure. -/

/-- The `error` tags produced by src/vacancy_api.py. -/
inductive ApiError where
  | time_restriction
  | http_error (status : Nat)
  | parse_error
  | timeout
  | connection_error
  | request_error
  | unknown_error
  | index_not_found
deriving Repr, DecidableEq

/-- `VacancyApiClient.get_index_vacancy` (src/vacancy_api.py lines 192–234):
call `get_course_vacancies`, propagate its failure unchanged, otherwise scan
`result['data']` for the first entry whose `index` equals `str(index_number)`;
a miss is the `index_not_found` failure. -/
def get_index_vacancy (getCourse : String → Except ApiError (List IndexInfo))
    (course_code index_number : String) : Except ApiError IndexInfo :=
  match getCourse course_code with
  | .error e => .error e
  | .ok all_indexes =>
    match all_indexes.find? (fun info => info.index == index_number) with
    | some info => .ok info
    | none => .error .index_not_found

/-- The spec's linear scan: first section whose identifier is string-equal to
the requested one (written as explicit recursion, following the spec's words). -/
def linearScan (sectionId : String) : List IndexInfo → Option IndexInfo
  | [] => none
  | info :: rest => if info.index = sectionId then some info else linearScan sectionId rest

/-- `fetchSectionSnapshot` as the spec defines it: perform the whole-course
fetch; return its failure unchanged; otherwise linearly scan for the requested
section; absence is the NotFound failure, never a successful empty result. -/
def fetchSectionSnapshotSpec (fetchCourse : String → Except ApiError (List IndexInfo))
    (course sectionId : String) : Except ApiError IndexInfo :=
  match fetchCourse course with
  | .error e => .error e
  | .ok secs =>
    match linearScan sectionId secs with
    | some s => .ok s
    | none => .error .index_not_found

/-! ## The monitoring scheduler (`VacancyChecker.check_all_alerts`)

One cycle (src/vacancy_checker.py lines 137–216): load the active alerts,
group them by `(course_code, index_number)` (a Python dict, so keys keep
first-occurrence order and each group keeps alert order), fetch once per
group, and for each alert of a successful group write the observed counts to
the store and apply the edge-trigger rule.

External effects are recorded in an event trace; the history table of
`alert_history` rows is carried explicitly.  `self.running` stays true for
the modelled cycle (no stop request), and the store operations succeed (the
per-alert `try/except` swallows store errors; store failures are not part of
the claims).  `send_notification` swallows delivery exceptions internally
(lines 134–135), so a failed send neither aborts the cycle nor prevents the
subsequent `mark_notification_sent`; delivery success is abstracted by the
`sendOk` parameter. -/

/-- An active alert row as returned by `Database.get_all_active_alerts`
(the columns the checker reads; `last_vacancy_count` defaults to 0 in the
schema and is never NULL). -/
structure Alert where
  id : Nat
  telegram_id : Nat
  course_code : String
  index_number : String
  last_vacancy_count : Int
deriving Repr, DecidableEq

/-- External effects of one cycle, in order of occurrence. -/
inductive Event where
  | fetch (course_code index_number : String)
  | write (alert_id : Nat) (vacancy waitlist : Int)
  | send (alert_id telegram_id : Nat) (ok : Bool)
  | mark (alert_id : Nat)
deriving Repr, DecidableEq

/-- One `alert_history` row (the fields the claims mention); rows are kept in
insertion order, which matches `checked_at` order. -/
structure HistRow where
  alert_id : Nat
  vacancy_count : Int
  waitlist_count : Int
  notification_sent : Bool
deriving Repr, DecidableEq

/-- `Database.update_alert_check` (src/database.py lines 543–594): sets
`last_vacancy_count` on the alert and inserts one `alert_history` row with
`notification_sent` at its FALSE default.  Here: append the row. -/
def update_alert_check (h : List HistRow) (alert_id : Nat) (v w : Int) : List HistRow :=
  h ++ [⟨alert_id, v, w, false⟩]

/-- Set `notification_sent := TRUE` on the first matching row of a list. -/
def markFirstMatch (alert_id : Nat) : List HistRow → List HistRow
  | [] => []
  | r :: rs =>
    if r.alert_id = alert_id then { r with notification_sent := true } :: rs
    else r :: markFirstMatch alert_id rs

/-- `Database.mark_notification_sent` (src/database.py lines 596–623): flip
`notification_sent` on the row of this alert with the latest `checked_at`
(`ORDER BY checked_at DESC LIMIT 1`), i.e. the last inserted row for the
alert. -/
def mark_notification_sent (h : List HistRow) (alert_id : Nat) : List HistRow :=
  (markFirstMatch alert_id h.reverse).reverse

/-- State threaded through a cycle: the history table and the event trace. -/
structure CycleState where
  history : List HistRow
  events : List Event
deriving Repr, DecidableEq

/-- The edge-trigger test `old_vacancy == 0 and new_vacancy > 0`
(src/vacancy_checker.py line 192, also line 84). -/
def notifyDecision (last_vacancy_count observed : Int) : Bool :=
  decide (last_vacancy_count = 0 ∧ 0 < observed)

/-- The per-alert body of the group loop (src/vacancy_checker.py lines
178–202): write the observed counts, then, if the edge-trigger fires, attempt
the send (outcome `sendOk alert.id`; its exceptions are swallowed) and mark
the latest history row notified. -/
def updateAlertFromInfo (sendOk : Nat → Bool) (info : IndexInfo)
    (st : CycleState) (alert : Alert) : CycleState :=
  let h1 := update_alert_check st.history alert.id info.vacancy info.waitlist
  let ev1 := st.events ++ [.write alert.id info.vacancy info.waitlist]
  if notifyDecision alert.last_vacancy_count info.vacancy then
    { history := mark_notification_sent h1 alert.id,
      events := ev1 ++ [.send alert.id alert.telegram_id (sendOk alert.id), .mark alert.id] }
  else
    { history := h1, events := ev1 }

/-- The grouping key `(alert['course_code'], alert['index_number'])`. -/
def keyOf (a : Alert) : String × String := (a.course_code, a.index_number)

/-- One step of building the dict's key list: `if key not in grouped_alerts:
grouped_alerts[key] = []` adds the key at the end on first sight. -/
def insertKey (ks : List (String × String)) (k : String × String) : List (String × String) :=
  if k ∈ ks then ks else ks ++ [k]

/-- The keys of `grouped_alerts` in first-occurrence order (Python dicts keep
insertion order). -/
def groupedKeys (alerts : List Alert) : List (String × String) :=
  alerts.foldl (fun ks a => insertKey ks (keyOf a)) []

/-- The group of one key: all alerts carrying it, in list order. -/
def groupOf (alerts : List Alert) (k : String × String) : List Alert :=
  alerts.filter (fun a => keyOf a = k)

/-- One iteration of the group loop (src/vacancy_checker.py lines 159–211):
one fetch for the key; on failure log and move on (no writes, no sends for
the group); on success run the per-alert body over the group. -/
def processGroup (fetchIndex : String × String → Except ApiError IndexInfo)
    (sendOk : Nat → Bool) (st : CycleState) (k : String × String)
    (alert_list : List Alert) : CycleState :=
  let st1 : CycleState := { st with events := st.events ++ [.fetch k.1 k.2] }
  match fetchIndex k with
  | .error _ => st1
  | .ok info => alert_list.foldl (updateAlertFromInfo sendOk info) st1

/-- `VacancyChecker.check_all_alerts` (src/vacancy_checker.py lines 137–216)
as one completed cycle over the alert snapshot, starting from history `h0`.
The whole body sits in a `try/except`, and the modelled cycle is a total
function: no exception escapes. -/
def check_all_alerts (fetchIndex : String × String → Except ApiError IndexInfo)
    (sendOk : Nat → Bool) (h0 : List HistRow) (alerts : List Alert) : CycleState :=
  (groupedKeys alerts).foldl
    (fun st k => processGroup fetchIndex sendOk st k (groupOf alerts k))
    { history := h0, events := [] }

/-- Evolution of one watch's stored `last_vacancy_count` over successive
cycles whose fetches succeed: each cycle stores the observed value (the write
happens unconditionally) and notifies according to `notifyDecision` applied
to the value stored before the cycle.  Returns the number of notifications. -/
def runWatch (last : Int) : List Int → Nat
  | [] => 0
  | v :: vs => (if notifyDecision last v then 1 else 0) + runWatch v vs

/-! ## Event-trace decomposition lemmas -/

/-- The events one alert contributes inside a successful group. -/
def alertEvents (sendOk : Nat → Bool) (info : IndexInfo) (a : Alert) : List Event :=
  Event.write a.id info.vacancy info.waitlist ::
    (if notifyDecision a.last_vacancy_count info.vacancy then
      [Event.send a.id a.telegram_id (sendOk a.id), Event.mark a.id]
    else [])

/-- The events one group contributes: its fetch, then (on success) the events
of its alerts in order. -/
def groupEvents (fetchIndex : String × String → Except ApiError IndexInfo)
    (sendOk : Nat → Bool) (k : String × String) (alert_list : List Alert) : List Event :=
  Event.fetch k.1 k.2 ::
    (match fetchIndex k with
     | .error _ => []
     | .ok info => alert_list.flatMap (alertEvents sendOk info))

theorem updateAlertFromInfo_events (sendOk : Nat → Bool) (info : IndexInfo)
    (st : CycleState) (a : Alert) :
    (updateAlertFromInfo sendOk info st a).events = st.events ++ alertEvents sendOk info a := by
  unfold updateAlertFromInfo alertEvents
  cases hn : notifyDecision a.last_vacancy_count info.vacancy <;> simp [hn]

theorem foldl_updateAlert_events (sendOk : Nat → Bool) (info : IndexInfo)
    (l : List Alert) (st : CycleState) :
    (l.foldl (updateAlertFromInfo sendOk info) st).events
      = st.events ++ l.flatMap (alertEvents sendOk info) := by
  induction l generalizing st with
  | nil => simp
  | cons a l ih =>
    simp [List.foldl_cons, ih, updateAlertFromInfo_events, List.flatMap_cons,
      List.append_assoc]

theorem processGroup_events (fetchIndex : String × String → Except ApiError IndexInfo)
    (sendOk : Nat → Bool) (st : CycleState) (k : String × String) (alert_list : List Alert) :
    (processGroup fetchIndex sendOk st k alert_list).events
      = st.events ++ groupEvents fetchIndex sendOk k alert_list := by
  unfold processGroup groupEvents
  cases hf : fetchIndex k with
  | error e => simp
  | ok info => simp [foldl_updateAlert_events]

theorem foldl_processGroup_events (fetchIndex : String × String → Except ApiError IndexInfo)
    (sendOk : Nat → Bool) (g : String × String → List Alert)
    (ks : List (String × String)) (st : CycleState) :
    (ks.foldl (fun st k => processGroup fetchIndex sendOk st k (g k)) st).events
      = st.events ++ ks.flatMap (fun k => groupEvents fetchIndex sendOk k (g k)) := by
  induction ks generalizing st with
  | nil => simp
  | cons k ks ih =>
    simp [List.foldl_cons, ih, processGroup_events, List.flatMap_cons, List.append_assoc]

theorem check_all_alerts_events (fetchIndex : String × String → Except ApiError IndexInfo)
    (sendOk : Nat → Bool) (h0 : List HistRow) (alerts : List Alert) :
    (check_all_alerts fetchIndex sendOk h0 alerts).events
      = (groupedKeys alerts).flatMap
          (fun k => groupEvents fetchIndex sendOk k (groupOf alerts k)) := by
  unfold check_all_alerts
  rw [foldl_processGroup_events]
  simp

/-! ### Membership in per-alert event lists -/

theorem alertEvents_write_mem (sendOk : Nat → Bool) (info : IndexInfo) (a : Alert)
    (i : Nat) (v w : Int) :
    Event.write i v w ∈ alertEvents sendOk info a
      ↔ i = a.id ∧ v = info.vacancy ∧ w = info.waitlist := by
  cases hn : notifyDecision a.last_vacancy_count info.vacancy <;> simp [alertEvents, hn]

theorem alertEvents_send_mem (sendOk : Nat → Bool) (info : IndexInfo) (a : Alert)
    (i t : Nat) (ok : Bool) :
    Event.send i t ok ∈ alertEvents sendOk info a
      ↔ notifyDecision a.last_vacancy_count info.vacancy = true
        ∧ i = a.id ∧ t = a.telegram_id ∧ ok = sendOk a.id := by
  cases hn : notifyDecision a.last_vacancy_count info.vacancy <;> simp [alertEvents, hn]

theorem alertEvents_mark_mem (sendOk : Nat → Bool) (info : IndexInfo) (a : Alert) (i : Nat) :
    Event.mark i ∈ alertEvents sendOk info a
      ↔ notifyDecision a.last_vacancy_count info.vacancy = true ∧ i = a.id := by
  cases hn : notifyDecision a.last_vacancy_count info.vacancy <;> simp [alertEvents, hn]

theorem alertEvents_fetch_not_mem (sendOk : Nat → Bool) (info : IndexInfo) (a : Alert)
    (c i : String) : Event.fetch c i ∉ alertEvents sendOk info a := by
  cases hn : notifyDecision a.last_vacancy_count info.vacancy <;> simp [alertEvents, hn]

theorem groupEvents_mem (fetchIndex : String × String → Except ApiError IndexInfo)
    (sendOk : Nat → Bool) (k : String × String) (l : List Alert) (e : Event) :
    e ∈ groupEvents fetchIndex sendOk k l
      ↔ e = Event.fetch k.1 k.2
        ∨ ∃ info, fetchIndex k = .ok info ∧ ∃ a ∈ l, e ∈ alertEvents sendOk info a := by
  cases hf : fetchIndex k with
  | error err => simp [groupEvents, hf]
  | ok info => simp [groupEvents, hf, List.mem_flatMap]

/-! ### Grouping-key facts -/

theorem mem_insertKey (ks : List (String × String)) (k k' : String × String) :
    k' ∈ insertKey ks k ↔ k' ∈ ks ∨ k' = k := by
  by_cases h : k ∈ ks
  · simp only [insertKey, if_pos h]
    exact ⟨Or.inl, fun hh => hh.elim id (fun e => e ▸ h)⟩
  · simp [insertKey, if_neg h]

theorem nodup_insertKey (ks : List (String × String)) (k : String × String)
    (h : ks.Nodup) : (insertKey ks k).Nodup := by
  by_cases hk : k ∈ ks
  · simpa [insertKey, if_pos hk] using h
  · rw [insertKey, if_neg hk, List.nodup_append]
    refine ⟨h, List.nodup_singleton k, ?_⟩
    intro a ha hak
    rw [List.mem_singleton] at hak
    exact hk (hak ▸ ha)

theorem mem_foldl_insertKey (alerts : List Alert) :
    ∀ (ks : List (String × String)) (k : String × String),
    k ∈ alerts.foldl (fun ks a => insertKey ks (keyOf a)) ks
      ↔ k ∈ ks ∨ ∃ a ∈ alerts, keyOf a = k := by
  induction alerts with
  | nil => simp
  | cons b l ih =>
    intro ks k
    simp only [List.foldl_cons, ih, mem_insertKey, List.mem_cons]
    constructor
    · rintro ((h | h) | ⟨a, ha, rfl⟩)
      · exact Or.inl h
      · exact Or.inr ⟨b, Or.inl rfl, h.symm⟩
      · exact Or.inr ⟨a, Or.inr ha, rfl⟩
    · rintro (h | ⟨a, (rfl | ha), rfl⟩)
      · exact Or.inl (Or.inl h)
      · exact Or.inl (Or.inr rfl)
      · exact Or.inr ⟨a, ha, rfl⟩

theorem nodup_foldl_insertKey (alerts : List Alert) :
    ∀ ks : List (String × String), ks.Nodup →
    (alerts.foldl (fun ks a => insertKey ks (keyOf a)) ks).Nodup := by
  induction alerts with
  | nil => intro ks h; simpa using h
  | cons b l ih =>
    intro ks h
    exact ih _ (nodup_insertKey ks (keyOf b) h)

theorem mem_groupedKeys (alerts : List Alert) (k : String × String) :
    k ∈ groupedKeys alerts ↔ ∃ a ∈ alerts, keyOf a = k := by
  simp [groupedKeys, mem_foldl_insertKey]

theorem groupedKeys_nodup (alerts : List Alert) : (groupedKeys alerts).Nodup :=
  nodup_foldl_insertKey alerts [] List.nodup_nil

theorem mem_groupOf (alerts : List Alert) (k : String × String) (a : Alert) :
    a ∈ groupOf alerts k ↔ a ∈ alerts ∧ keyOf a = k := by
  simp [groupOf, List.mem_filter]

/-! ### Counting fetch events -/

theorem groupEvents_count_fetch (fetchIndex : String × String → Except ApiError IndexInfo)
    (sendOk : Nat → Bool) (k : String × String) (l : List Alert) (c i : String) :
    (groupEvents fetchIndex sendOk k l).count (Event.fetch c i)
      = if k = (c, i) then 1 else 0 := by
  have htail : ∀ rest : List Event, (∀ e ∈ rest, ∀ c' i', e ≠ Event.fetch c' i') →
      (Event.fetch k.1 k.2 :: rest).count (Event.fetch c i)
        = if k = (c, i) then 1 else 0 := by
    intro rest hrest
    rw [List.count_cons, List.count_eq_zero.mpr (fun hmem => hrest _ hmem c i rfl)]
    by_cases hk : k = (c, i)
    · subst hk; simp
    · have : ¬ (Event.fetch k.1 k.2 == Event.fetch c i) = true := by
        simp only [beq_iff_eq, Event.fetch.injEq]
        intro ⟨h1, h2⟩
        exact hk (Prod.ext h1 h2)
      simp [this, hk]
  cases hf : fetchIndex k with
  | error err =>
    rw [groupEvents, hf]
    exact htail [] (by simp)
  | ok info =>
    rw [groupEvents, hf]
    refine htail _ ?_
    intro e he c' i' hfe
    rw [List.mem_flatMap] at he
    obtain ⟨a, _, hea⟩ := he
    exact alertEvents_fetch_not_mem sendOk info a c' i' (hfe ▸ hea)

theorem sum_map_ite_eq_zero (ks : List (String × String)) (t : String × String)
    (h : t ∉ ks) : (ks.map (fun k => if k = t then 1 else 0)).sum = 0 := by
  induction ks with
  | nil => simp
  | cons b l ih =>
    have hbt : ¬ b = t := fun e => h (e ▸ List.mem_cons_self b l)
    simp only [List.map_cons, List.sum_cons, if_neg hbt, Nat.zero_add]
    exact ih (fun hl => h (List.mem_cons_of_mem b hl))

theorem sum_map_ite_eq_one (ks : List (String × String)) (t : String × String)
    (hn : ks.Nodup) (hm : t ∈ ks) :
    (ks.map (fun k => if k = t then 1 else 0)).sum = 1 := by
  induction ks with
  | nil => cases hm
  | cons b l ih =>
    rcases List.mem_cons.mp hm with rfl | hml
    · simp only [List.map_cons, List.sum_cons, if_pos rfl]
      rw [sum_map_ite_eq_zero l t (List.Nodup.not_mem hn)]
      simp
    · have hbt : ¬ b = t := fun e => (List.Nodup.not_mem hn) (e ▸ hml)
      simp only [List.map_cons, List.sum_cons, if_neg hbt, Nat.zero_add]
      exact ih (List.Nodup.of_cons hn) hml

theorem count_fetch_check_all (fetchIndex : String × String → Except ApiError IndexInfo)
    (sendOk : Nat → Bool) (h0 : List HistRow) (alerts : List Alert) (c i : String)
    (hmem : (c, i) ∈ groupedKeys alerts) :
    (check_all_alerts fetchIndex sendOk h0 alerts).events.count (Event.fetch c i) = 1 := by
  rw [check_all_alerts_events, List.count_flatMap]
  rw [show (List.map (List.count (Event.fetch c i) ∘
        fun k => groupEvents fetchIndex sendOk k (groupOf alerts k)) (groupedKeys alerts))
      = (groupedKeys alerts).map (fun k => if k = (c, i) then 1 else 0) from
    List.map_congr_left (fun k _ => groupEvents_count_fetch fetchIndex sendOk k _ c i)]
  exact sum_map_ite_eq_one _ _ (groupedKeys_nodup alerts) hmem

/-! ### Where alert-level events come from -/

theorem event_origin (fetchIndex : String × String → Except ApiError IndexInfo)
    (sendOk : Nat → Bool) (h0 : List HistRow) (alerts : List Alert) (e : Event) :
    e ∈ (check_all_alerts fetchIndex sendOk h0 alerts).events
      ↔ ∃ k ∈ groupedKeys alerts, e ∈ groupEvents fetchIndex sendOk k (groupOf alerts k) := by
  rw [check_all_alerts_events, List.mem_flatMap]

theorem write_mem_events_iff (fetchIndex : String × String → Except ApiError IndexInfo)
    (sendOk : Nat → Bool) (h0 : List HistRow) (alerts : List Alert) (a : Alert)
    (v w : Int) (hnd : (alerts.map Alert.id).Nodup) (ha : a ∈ alerts) :
    Event.write a.id v w ∈ (check_all_alerts fetchIndex sendOk h0 alerts).events
      ↔ ∃ info, fetchIndex (keyOf a) = .ok info ∧ v = info.vacancy ∧ w = info.waitlist := by
  constructor
  · intro h
    obtain ⟨k, _, he⟩ := (event_origin fetchIndex sendOk h0 alerts _).mp h
    rcases (groupEvents_mem fetchIndex sendOk k _ _).mp he with hfe | ⟨info, hok, b, hb, hbe⟩
    · exact absurd hfe (by simp)
    · obtain ⟨hba, hbk⟩ := (mem_groupOf alerts k b).mp hb
      obtain ⟨hid, hv, hw⟩ := (alertEvents_write_mem sendOk info b a.id v w).mp hbe
      have hab : a = b := List.inj_on_of_nodup_map hnd ha hba hid
      exact ⟨info, by rw [hab, hbk]; exact hok, hv, hw⟩
  · rintro ⟨info, hok, rfl, rfl⟩
    refine (event_origin fetchIndex sendOk h0 alerts _).mpr
      ⟨keyOf a, (mem_groupedKeys alerts _).mpr ⟨a, ha, rfl⟩,
        (groupEvents_mem fetchIndex sendOk _ _ _).mpr (Or.inr
          ⟨info, hok, a, (mem_groupOf alerts _ a).mpr ⟨ha, rfl⟩,
            (alertEvents_write_mem sendOk info a a.id _ _).mpr ⟨rfl, rfl, rfl⟩⟩)⟩

theorem send_mem_events_iff (fetchIndex : String × String → Except ApiError IndexInfo)
    (sendOk : Nat → Bool) (h0 : List HistRow) (alerts : List Alert) (a : Alert)
    (t : Nat) (ok : Bool) (hnd : (alerts.map Alert.id).Nodup) (ha : a ∈ alerts) :
    Event.send a.id t ok ∈ (check_all_alerts fetchIndex sendOk h0 alerts).events
      ↔ ∃ info, fetchIndex (keyOf a) = .ok info
          ∧ notifyDecision a.last_vacancy_count info.vacancy = true
          ∧ t = a.telegram_id ∧ ok = sendOk a.id := by
  constructor
  · intro h
    obtain ⟨k, _, he⟩ := (event_origin fetchIndex sendOk h0 alerts _).mp h
    rcases (groupEvents_mem fetchIndex sendOk k _ _).mp he with hfe | ⟨info, hok, b, hb, hbe⟩
    · exact absurd hfe (by simp)
    · obtain ⟨hba, hbk⟩ := (mem_groupOf alerts k b).mp hb
      obtain ⟨hn, hid, ht, hko⟩ := (alertEvents_send_mem sendOk info b a.id t ok).mp hbe
      have hab : a = b := List.inj_on_of_nodup_map hnd ha hba hid
      subst hab
      exact ⟨info, hbk ▸ hok, hn, ht, hko⟩
  · rintro ⟨info, hok, hn, rfl, rfl⟩
    refine (event_origin fetchIndex sendOk h0 alerts _).mpr
      ⟨keyOf a, (mem_groupedKeys alerts _).mpr ⟨a, ha, rfl⟩,
        (groupEvents_mem fetchIndex sendOk _ _ _).mpr (Or.inr
          ⟨info, hok, a, (mem_groupOf alerts _ a).mpr ⟨ha, rfl⟩,
            (alertEvents_send_mem sendOk info a a.id _ _).mpr ⟨hn, rfl, rfl, rfl⟩⟩)⟩

theorem mark_mem_events_iff (fetchIndex : String × String → Except ApiError IndexInfo)
    (sendOk : Nat → Bool) (h0 : List HistRow) (alerts : List Alert) (a : Alert)
    (hnd : (alerts.map Alert.id).Nodup) (ha : a ∈ alerts) :
    Event.mark a.id ∈ (check_all_alerts fetchIndex sendOk h0 alerts).events
      ↔ ∃ info, fetchIndex (keyOf a) = .ok info
          ∧ notifyDecision a.last_vacancy_count info.vacancy = true := by
  constructor
  · intro h
    obtain ⟨k, _, he⟩ := (event_origin fetchIndex sendOk h0 alerts _).mp h
    rcases (groupEvents_mem fetchIndex sendOk k _ _).mp he with hfe | ⟨info, hok, b, hb, hbe⟩
    · exact absurd hfe (by simp)
    · obtain ⟨hba, hbk⟩ := (mem_groupOf alerts k b).mp hb
      obtain ⟨hn, hid⟩ := (alertEvents_mark_mem sendOk info b a.id).mp hbe
      have hab : a = b := List.inj_on_of_nodup_map hnd ha hba hid
      subst hab
      exact ⟨info, hbk ▸ hok, hn⟩
  · rintro ⟨info, hok, hn⟩
    refine (event_origin fetchIndex sendOk h0 alerts _).mpr
      ⟨keyOf a, (mem_groupedKeys alerts _).mpr ⟨a, ha, rfl⟩,
        (groupEvents_mem fetchIndex sendOk _ _ _).mpr (Or.inr
          ⟨info, hok, a, (mem_groupOf alerts _ a).mpr ⟨ha, rfl⟩,
            (alertEvents_mark_mem sendOk info a a.id).mpr ⟨hn, rfl⟩⟩)⟩

/-! ### The edge trigger over successive cycles -/

theorem runWatch_eq_zero (vs : List Int) :
    ∀ last : Int, last ≠ 0 → (∀ v ∈ vs, 0 < v) → runWatch last vs = 0 := by
  induction vs with
  | nil => intro last _ _; rfl
  | cons v vs ih =>
    intro last hl hpos
    have hd : notifyDecision last v = false := by simp [notifyDecision, hl]
    have hv : (0 : Int) < v := hpos v (List.mem_cons_self v vs)
    simp only [runWatch, hd, if_neg Bool.false_ne_true, Nat.zero_add]
    exact ih v (by omega) (fun u hu => hpos u (List.mem_cons_of_mem v hu))

/-! ## The claims -/

/-- C1: in a cycle, a watch is notified iff its stored `last_vacancy_count`
was 0 and the observed vacancy of its group's (successful) fetch is positive;
and over a streak of cycles that all observe a positive count, the watch —
whose stored count is overwritten with the observation on every cycle — is
notified at most once. -/
theorem C1_edge_trigger :
    (∀ (fetchIndex : String × String → Except ApiError IndexInfo) (sendOk : Nat → Bool)
        (h0 : List HistRow) (alerts : List Alert) (a : Alert) (info : IndexInfo),
      (alerts.map Alert.id).Nodup → a ∈ alerts → fetchIndex (keyOf a) = .ok info →
      ((∃ t ok, Event.send a.id t ok ∈ (check_all_alerts fetchIndex sendOk h0 alerts).events)
        ↔ (a.last_vacancy_count = 0 ∧ 0 < info.vacancy)))
    ∧ (∀ (last : Int) (vs : List Int), (∀ v ∈ vs, 0 < v) → runWatch last vs ≤ 1) := by
  constructor
  · intro fetchIndex sendOk h0 alerts a info hnd ha hok
    constructor
    · rintro ⟨t, ok, hmem⟩
      obtain ⟨info', hok', hn, -, -⟩ :=
        (send_mem_events_iff fetchIndex sendOk h0 alerts a t ok hnd ha).mp hmem
      rw [hok] at hok'
      obtain rfl : info = info' := by
        cases hok'
        rfl
      simpa [notifyDecision] using hn
    · intro hcond
      exact ⟨a.telegram_id, sendOk a.id,
        (send_mem_events_iff fetchIndex sendOk h0 alerts a _ _ hnd ha).mpr
          ⟨info, hok, by simp [notifyDecision, hcond.1, hcond.2], rfl, rfl⟩⟩
  · intro last vs hpos
    by_cases hl : last = 0
    · subst hl
      cases vs with
      | nil => exact Nat.zero_le 1
      | cons v vs =>
        have hv : (0 : Int) < v := hpos v (List.mem_cons_self v vs)
        have hd : notifyDecision 0 v = true := by simp [notifyDecision, hv]
        simp only [runWatch, hd, if_pos]
        rw [runWatch_eq_zero vs v (by omega)
          (fun u hu => hpos u (List.mem_cons_of_mem v hu))]
    · rw [runWatch_eq_zero vs last hl hpos]
      exact Nat.zero_le 1

/-- Witness for C1 at a concrete input: one watch with stored count 0, a
successful fetch observing 3 seats open; and the observation streak [3, 2, 5]. -/
theorem C1_edge_trigger_witness :
    ((∃ t ok, Event.send 1 t ok ∈ (check_all_alerts
          (fun _ => Except.ok { index := "10001", vacancy := 3, waitlist := 0, classes := [] })
          (fun _ => true) []
          [{ id := 1, telegram_id := 7, course_code := "SC2103", index_number := "10001",
             last_vacancy_count := 0 }]).events)
      ↔ ((0 : Int) = 0 ∧ (0 : Int) < 3))
    ∧ runWatch 0 [3, 2, 5] ≤ 1 :=
  ⟨C1_edge_trigger.1
      (fun _ => Except.ok { index := "10001", vacancy := 3, waitlist := 0, classes := [] })
      (fun _ => true) []
      [{ id := 1, telegram_id := 7, course_code := "SC2103", index_number := "10001",
         last_vacancy_count := 0 }]
      { id := 1, telegram_id := 7, course_code := "SC2103", index_number := "10001",
        last_vacancy_count := 0 }
      { index := "10001", vacancy := 3, waitlist := 0, classes := [] }
      (by decide) (List.mem_singleton.mpr rfl) rfl,
    C1_edge_trigger.2 0 [3, 2, 5] (by decide)⟩

/-- C2: every active watch's (courseCode, sectionId) key is fetched exactly
once per cycle, and every seat-count write for a watch carries exactly the
vacancy/waitlist values of its key's single fetched snapshot — so all watches
of one group are updated from the same snapshot. -/
theorem C2_grouping :
    ∀ (fetchIndex : String × String → Except ApiError IndexInfo) (sendOk : Nat → Bool)
      (h0 : List HistRow) (alerts : List Alert) (a : Alert),
      (alerts.map Alert.id).Nodup → a ∈ alerts →
      ((check_all_alerts fetchIndex sendOk h0 alerts).events.count
          (Event.fetch a.course_code a.index_number) = 1)
      ∧ (∀ info, fetchIndex (keyOf a) = .ok info →
          ∀ v w, Event.write a.id v w ∈ (check_all_alerts fetchIndex sendOk h0 alerts).events
            ↔ (v = info.vacancy ∧ w = info.waitlist)) := by
  intro fetchIndex sendOk h0 alerts a hnd ha
  constructor
  · exact count_fetch_check_all fetchIndex sendOk h0 alerts _ _
      ((mem_groupedKeys alerts _).mpr ⟨a, ha, rfl⟩)
  · intro info hok v w
    rw [write_mem_events_iff fetchIndex sendOk h0 alerts a v w hnd ha]
    constructor
    · rintro ⟨info', hok', hv, hw⟩
      rw [hok] at hok'
      obtain rfl : info = info' := by
        cases hok'
        rfl
      exact ⟨hv, hw⟩
    · rintro ⟨rfl, rfl⟩
      exact ⟨info, hok, rfl, rfl⟩

/-- Witness for C2 at a concrete input: two watches on the same section. -/
theorem C2_grouping_witness :
    ((check_all_alerts
        (fun _ => Except.ok { index := "10001", vacancy := 3, waitlist := 1, classes := [] })
        (fun _ => true) []
        [{ id := 1, telegram_id := 7, course_code := "SC2103", index_number := "10001",
           last_vacancy_count := 0 },
         { id := 2, telegram_id := 8, course_code := "SC2103", index_number := "10001",
           last_vacancy_count := 5 }]).events.count (Event.fetch "SC2103" "10001") = 1)
    ∧ (Event.write 1 3 1 ∈ (check_all_alerts
        (fun _ => Except.ok { index := "10001", vacancy := 3, waitlist := 1, classes := [] })
        (fun _ => true) []
        [{ id := 1, telegram_id := 7, course_code := "SC2103", index_number := "10001",
           last_vacancy_count := 0 },
         { id := 2, telegram_id := 8, course_code := "SC2103", index_number := "10001",
           last_vacancy_count := 5 }]).events ↔ ((3 : Int) = 3 ∧ (1 : Int) = 1)) :=
  ⟨(C2_grouping
      (fun _ => Except.ok { index := "10001", vacancy := 3, waitlist := 1, classes := [] })
      (fun _ => true) []
      [{ id := 1, telegram_id := 7, course_code := "SC2103", index_number := "10001",
         last_vacancy_count := 0 },
       { id := 2, telegram_id := 8, course_code := "SC2103", index_number := "10001",
         last_vacancy_count := 5 }]
      { id := 1, telegram_id := 7, course_code := "SC2103", index_number := "10001",
        last_vacancy_count := 0 }
      (by decide) (by simp)).1,
   (C2_grouping
      (fun _ => Except.ok { index := "10001", vacancy := 3, waitlist := 1, classes := [] })
      (fun _ => true) []
      [{ id := 1, telegram_id := 7, course_code := "SC2103", index_number := "10001",
         last_vacancy_count := 0 },
       { id := 2, telegram_id := 8, course_code := "SC2103", index_number := "10001",
         last_vacancy_count := 5 }]
      { id := 1, telegram_id := 7, course_code := "SC2103", index_number := "10001",
        last_vacancy_count := 0 }
      (by decide) (by simp)).2
     { index := "10001", vacancy := 3, waitlist := 1, classes := [] } rfl 3 1⟩

/-- C3: when the fetch of a watch's group fails, no store write, no send and
no mark happens for that watch in this cycle, while the cycle still fetches
every group (it proceeds past the failure); `check_all_alerts` is a total
function, so no exception escapes the cycle. -/
theorem C3_group_failure :
    ∀ (fetchIndex : String × String → Except ApiError IndexInfo) (sendOk : Nat → Bool)
      (h0 : List HistRow) (alerts : List Alert) (a : Alert) (err : ApiError),
      (alerts.map Alert.id).Nodup → a ∈ alerts → fetchIndex (keyOf a) = .error err →
      (∀ v w, Event.write a.id v w ∉ (check_all_alerts fetchIndex sendOk h0 alerts).events)
      ∧ (∀ t ok, Event.send a.id t ok ∉ (check_all_alerts fetchIndex sendOk h0 alerts).events)
      ∧ (Event.mark a.id ∉ (check_all_alerts fetchIndex sendOk h0 alerts).events)
      ∧ (∀ b ∈ alerts, Event.fetch b.course_code b.index_number
            ∈ (check_all_alerts fetchIndex sendOk h0 alerts).events) := by
  intro fetchIndex sendOk h0 alerts a err hnd ha herr
  refine ⟨?_, ?_, ?_, ?_⟩
  · intro v w hmem
    obtain ⟨info, hok, -, -⟩ :=
      (write_mem_events_iff fetchIndex sendOk h0 alerts a v w hnd ha).mp hmem
    rw [herr] at hok
    exact Except.noConfusion hok
  · intro t ok hmem
    obtain ⟨info, hok, -, -, -⟩ :=
      (send_mem_events_iff fetchIndex sendOk h0 alerts a t ok hnd ha).mp hmem
    rw [herr] at hok
    exact Except.noConfusion hok
  · intro hmem
    obtain ⟨info, hok, -⟩ :=
      (mark_mem_events_iff fetchIndex sendOk h0 alerts a hnd ha).mp hmem
    rw [herr] at hok
    exact Except.noConfusion hok
  · intro b hb
    exact (event_origin fetchIndex sendOk h0 alerts _).mpr
      ⟨keyOf b, (mem_groupedKeys alerts _).mpr ⟨b, hb, rfl⟩,
        (groupEvents_mem fetchIndex sendOk _ _ _).mpr (Or.inl rfl)⟩

/-- Witness for C3 at a concrete input: one watch whose fetch times out. -/
theorem C3_group_failure_witness :
    (Event.write 1 0 0 ∉ (check_all_alerts (fun _ => Except.error ApiError.timeout)
        (fun _ => true) []
        [{ id := 1, telegram_id := 7, course_code := "SC2103", index_number := "10001",
           last_vacancy_count := 0 }]).events)
    ∧ (Event.fetch "SC2103" "10001" ∈ (check_all_alerts (fun _ => Except.error ApiError.timeout)
        (fun _ => true) []
        [{ id := 1, telegram_id := 7, course_code := "SC2103", index_number := "10001",
           last_vacancy_count := 0 }]).events) :=
  ⟨(C3_group_failure (fun _ => Except.error ApiError.timeout) (fun _ => true) []
      [{ id := 1, telegram_id := 7, course_code := "SC2103", index_number := "10001",
         last_vacancy_count := 0 }]
      { id := 1, telegram_id := 7, course_code := "SC2103", index_number := "10001",
        last_vacancy_count := 0 }
      ApiError.timeout (by decide) (List.mem_singleton.mpr rfl) rfl).1 0 0,
   (C3_group_failure (fun _ => Except.error ApiError.timeout) (fun _ => true) []
      [{ id := 1, telegram_id := 7, course_code := "SC2103", index_number := "10001",
         last_vacancy_count := 0 }]
      { id := 1, telegram_id := 7, course_code := "SC2103", index_number := "10001",
        last_vacancy_count := 0 }
      ApiError.timeout (by decide) (List.mem_singleton.mpr rfl) rfl).2.2.2
     { id := 1, telegram_id := 7, course_code := "SC2103", index_number := "10001",
       last_vacancy_count := 0 } (List.mem_singleton.mpr rfl)⟩

/-- Marking the freshly inserted history row: `mark_notification_sent` flips
the latest row of the alert, which is exactly the row `update_alert_check`
just appended. -/
theorem mark_last_row (h : List HistRow) (aid : Nat) (v w : Int) :
    mark_notification_sent (update_alert_check h aid v w) aid
      = h ++ [⟨aid, v, w, true⟩] := by
  unfold mark_notification_sent update_alert_check
  rw [List.reverse_append]
  simp [markFirstMatch]

/-- C4: when the edge-trigger fires, the event order is write, then send
attempt, then mark — the seat-count write precedes the notification attempt;
the history ends with the freshly written row marked notified (so a
*successful* send has its latest row marked); and for a failing send
(`sendOk` returning false) the same single write and single send attempt
stand: nothing is rolled back and nothing is retried. -/
theorem C4_write_before_notify :
    ∀ (sendOk : Nat → Bool) (info : IndexInfo) (st : CycleState) (a : Alert),
      a.last_vacancy_count = 0 → 0 < info.vacancy →
      (updateAlertFromInfo sendOk info st a).events
        = st.events ++ [Event.write a.id info.vacancy info.waitlist,
            Event.send a.id a.telegram_id (sendOk a.id), Event.mark a.id]
      ∧ (updateAlertFromInfo sendOk info st a).history
        = st.history ++ [⟨a.id, info.vacancy, info.waitlist, true⟩] := by
  intro sendOk info st a hlast hpos
  have hd : notifyDecision a.last_vacancy_count info.vacancy = true := by
    simp [notifyDecision, hlast, hpos]
  unfold updateAlertFromInfo
  rw [hd]
  exact ⟨by simp, by simp [mark_last_row]⟩

/-- Witness for C4 at a concrete input, with a *failing* send: the write still
happens and exactly one send attempt is recorded. -/
theorem C4_write_before_notify_witness :
    (updateAlertFromInfo (fun _ => false)
        { index := "10001", vacancy := 2, waitlist := 0, classes := [] }
        { history := [], events := [] }
        { id := 1, telegram_id := 7, course_code := "SC2103", index_number := "10001",
          last_vacancy_count := 0 }).events
      = [Event.write 1 2 0, Event.send 1 7 false, Event.mark 1]
    ∧ (updateAlertFromInfo (fun _ => false)
        { index := "10001", vacancy := 2, waitlist := 0, classes := [] }
        { history := [], events := [] }
        { id := 1, telegram_id := 7, course_code := "SC2103", index_number := "10001",
          last_vacancy_count := 0 }).history
      = [{ alert_id := 1, vacancy_count := 2, waitlist_count := 0, notification_sent := true }] :=
  C4_write_before_notify (fun _ => false)
    { index := "10001", vacancy := 2, waitlist := 0, classes := [] }
    { history := [], events := [] }
    { id := 1, telegram_id := 7, course_code := "SC2103", index_number := "10001",
      last_vacancy_count := 0 }
    rfl (by decide)

/-- C5: a document in which no vacancy table is found parses to the empty
section list as a *successful* result, not an error (src/vacancy_parser.py
lines 51–54 return `[]`, while the error outcome of the function is `None`). -/
theorem C5_no_table_empty_success :
    parse_vacancy_html none = some [] ∧ (parse_vacancy_html none).isSome = true :=
  ⟨rfl, rfl⟩

/-- C6: `_parse_number` maps every malformed numeric cell to exactly 0 — the
empty string, the dash, the non-breaking-space placeholder (both the literal
`&nbsp;` text and an actual U+00A0 character, which strips to empty), `N/A`,
and any text `int` cannot parse.  The function is total, so it never raises. -/
theorem C6_lenient_numeric :
    parse_number "" = 0 ∧ parse_number "-" = 0 ∧ parse_number "&nbsp;" = 0
    ∧ parse_number "\xa0" = 0 ∧ parse_number "N/A" = 0
    ∧ (∀ text, pyInt (pyStrip text) = none → parse_number text = 0) := by
  refine ⟨by decide, by decide, by decide, by decide, by decide, ?_⟩
  intro text h
  simp only [parse_number]
  split
  · rfl
  · rw [h]

/-- Witness for C6 at the concrete non-numeric input `n/a`. -/
theorem C6_lenient_numeric_witness :
    pyInt (pyStrip "n/a") = none ∧ parse_number "n/a" = 0 :=
  ⟨by decide, C6_lenient_numeric.2.2.2.2.2 "n/a" (by decide)⟩

/-- The code's `find?` over `result['data']` is the spec's linear scan. -/
theorem find?_eq_linearScan (sectionId : String) (l : List IndexInfo) :
    l.find? (fun info => info.index == sectionId) = linearScan sectionId l := by
  induction l with
  | nil => rfl
  | cons info rest ih =>
    rw [List.find?_cons, linearScan]
    by_cases h : info.index = sectionId
    · simp [h]
    · have hb : (info.index == sectionId) = false := by simpa using h
      simp [hb, ih, h]

/-- C8: `get_index_vacancy` equals the spec's composition — whole-course
fetch, failures returned unchanged, then a linear scan for the first section
with a string-equal identifier, a miss being the NotFound failure (never a
successful empty result, by the shape of `fetchSectionSnapshotSpec`). -/
theorem C8_section_fetch_refines_spec :
    ∀ (getCourse : String → Except ApiError (List IndexInfo)) (course_code index_number : String),
      get_index_vacancy getCourse course_code index_number
        = fetchSectionSnapshotSpec getCourse course_code index_number := by
  intro getCourse course_code index_number
  unfold get_index_vacancy fetchSectionSnapshotSpec
  cases getCourse course_code with
  | error e => rfl
  | ok l => simp only [find?_eq_linearScan]

/-! ### Sign of parsed numeric cells (for C7) -/

/-- A negative result of CPython `int` can only come from a leading minus. -/
theorem pyIntList_neg_head (l : List Char) (n : Int)
    (h : pyIntList l = some n) (hn : n < 0) : l.head? = some '-' := by
  cases l with
  | nil => cases h
  | cons c cs =>
    by_cases hc : c = '-'
    · subst hc; rfl
    · exfalso
      rw [pyIntList, if_neg hc] at h
      by_cases hp : c = '+'
      · rw [if_pos hp] at h
        obtain ⟨m, -, rfl⟩ := Option.map_eq_some'.mp h
        exact (Int.ofNat_nonneg m).not_lt hn
      · rw [if_neg hp] at h
        obtain ⟨m, -, rfl⟩ := Option.map_eq_some'.mp h
        exact (Int.ofNat_nonneg m).not_lt hn

/-- Unless the stripped cell text begins with a minus sign, the lenient
numeric parse is non-negative. -/
theorem parse_number_nonneg (text : String)
    (h : (pyStrip text).data.head? ≠ some '-') : 0 ≤ parse_number text := by
  simp only [parse_number]
  split
  · exact le_refl 0
  · cases hp : pyInt (pyStrip text) with
    | none => exact le_refl 0
    | some n =>
      show 0 ≤ n
      by_contra hneg
      push_neg at hneg
      exact h (pyIntList_neg_head _ n hp hneg)

theorem appendClassToLast_counts (acc : List IndexInfo) (c : ClassInfo) (sec : IndexInfo)
    (h : sec ∈ appendClassToLast acc c) :
    ∃ sec' ∈ acc, sec.vacancy = sec'.vacancy ∧ sec.waitlist = sec'.waitlist := by
  unfold appendClassToLast at h
  cases hl : acc.getLast? with
  | none =>
    rw [hl] at h
    exact ⟨sec, h, rfl, rfl⟩
  | some last =>
    rw [hl] at h
    rcases List.mem_append.mp h with h1 | h2
    · exact ⟨sec, List.dropLast_subset acc h1, rfl, rfl⟩
    · rw [List.mem_singleton] at h2
      subst h2
      exact ⟨last, List.mem_of_mem_getLast? hl, rfl, rfl⟩

theorem processRow_nonneg (acc : List IndexInfo) (row : List String)
    (hacc : ∀ sec ∈ acc, 0 ≤ sec.vacancy ∧ 0 ≤ sec.waitlist)
    (hrow : ∀ c ∈ row, (pyStrip c).data.head? ≠ some '-') :
    ∀ sec ∈ processRow acc row, 0 ≤ sec.vacancy ∧ 0 ≤ sec.waitlist := by
  intro sec hsec
  unfold processRow at hsec
  by_cases hlen : row.length < 8
  · rw [if_pos hlen] at hsec
    exact hacc sec hsec
  · rw [if_neg hlen] at hsec
    simp only [] at hsec
    have hcell : ∀ i, i < 8 → cellText row i ∈ row := by
      intro i hi
      have hi' : i < row.length := by omega
      rw [cellText, List.getD_eq_getElem row "" hi']
      exact List.getElem_mem hi'
    have hext : ∀ s ∈ acc ++ [newSection row], 0 ≤ s.vacancy ∧ 0 ≤ s.waitlist := by
      intro s hs
      rcases List.mem_append.mp hs with h1 | h2
      · exact hacc s h1
      · rw [List.mem_singleton] at h2
        subst h2
        exact ⟨parse_number_nonneg _ (hrow _ (hcell 1 (by omega))),
               parse_number_nonneg _ (hrow _ (hcell 2 (by omega)))⟩
    split at hsec
    · split at hsec
      · obtain ⟨sec', hsec', hv, hw⟩ := appendClassToLast_counts _ _ sec hsec
        rw [hv, hw]
        exact hext sec' hsec'
      · exact hext sec hsec
    · split at hsec
      · obtain ⟨sec', hsec', hv, hw⟩ := appendClassToLast_counts _ _ sec hsec
        rw [hv, hw]
        exact hacc sec' hsec'
      · exact hacc sec hsec

theorem foldl_processRow_nonneg (rs : List (List String)) :
    ∀ acc : List IndexInfo,
      (∀ sec ∈ acc, 0 ≤ sec.vacancy ∧ 0 ≤ sec.waitlist) →
      (∀ row ∈ rs, ∀ c ∈ row, (pyStrip c).data.head? ≠ some '-') →
      ∀ sec ∈ rs.foldl processRow acc, 0 ≤ sec.vacancy ∧ 0 ≤ sec.waitlist := by
  induction rs with
  | nil => intro acc hacc _; simpa using hacc
  | cons row rs ih =>
    intro acc hacc hrows
    rw [List.foldl_cons]
    exact ih (processRow acc row)
      (processRow_nonneg acc row hacc (hrows row (List.mem_cons_self row rs)))
      (fun r hr => hrows r (List.mem_cons_of_mem row hr))

/-- C7 counterexample: a document whose vacancy cell is the negative literal
`-5` parses to a Section with `seatsOpen = -5 < 0` — the code's lenient parse
passes negative integer literals through (`int("-5")`), so the claim that
every produced Section has non-negative counts fails. -/
theorem C7_counterexample :
    parse_vacancy_html (some
        [["Index", "Vacancy", "Waitlist", "Type", "Group", "Day", "Time", "Venue"],
         ["10001", "-5", "0", "LEC", "G1", "MON", "0830", "LT1"]])
      = some [{ index := "10001", vacancy := -5, waitlist := 0,
                classes := [{ type := "LEC", group := "G1", day := "MON",
                              time := "0830", venue := "LT1" }] }]
    ∧ ¬ (∀ sec ∈ [({ index := "10001", vacancy := -5, waitlist := 0,
                       classes := [{ type := "LEC", group := "G1", day := "MON",
                                     time := "0830", venue := "LT1" }] } : IndexInfo)],
          0 ≤ sec.vacancy ∧ 0 ≤ sec.waitlist) := by
  exact ⟨by decide, by decide⟩

/-- C7 amended: every Section the parser produces has non-negative seatsOpen
and waitlisted values *provided* no cell's stripped text starts with a minus
sign; a negative integer literal in a numeric cell (e.g. `-5`) is passed
through as a negative value. -/
theorem C7_nonneg_amended :
    ∀ (rows : List (List String)) (out : List IndexInfo) (sec : IndexInfo),
      (∀ row ∈ rows, ∀ c ∈ row, (pyStrip c).data.head? ≠ some '-') →
      parse_vacancy_html (some rows) = some out → sec ∈ out →
      0 ≤ sec.vacancy ∧ 0 ≤ sec.waitlist := by
  intro rows out sec hcells hp hsec
  rw [parse_vacancy_html] at hp
  obtain rfl : (rows.drop 1).foldl processRow [] = out := by
    cases hp
    rfl
  exact foldl_processRow_nonneg _ [] (by simp)
    (fun row hr => hcells row (List.drop_subset 1 rows hr)) sec hsec

/-- Witness for the amended C7 at a concrete minus-free document. -/
theorem C7_nonneg_amended_witness :
    0 ≤ ({ index := "10001", vacancy := 5, waitlist := 2,
             classes := [{ type := "LEC", group := "G1", day := "MON",
                           time := "0830", venue := "LT1" }] } : IndexInfo).vacancy
    ∧ 0 ≤ ({ index := "10001", vacancy := 5, waitlist := 2,
               classes := [{ type := "LEC", group := "G1", day := "MON",
                             time := "0830", venue := "LT1" }] } : IndexInfo).waitlist :=
  C7_nonneg_amended
    [["Index", "Vacancy", "Waitlist", "Type", "Group", "Day", "Time", "Venue"],
     ["10001", "5", "2", "LEC", "G1", "MON", "0830", "LT1"]]
    [{ index := "10001", vacancy := 5, waitlist := 2,
       classes := [{ type := "LEC", group := "G1", day := "MON",
                     time := "0830", venue := "LT1" }] }]
    { index := "10001", vacancy := 5, waitlist := 2,
      classes := [{ type := "LEC", group := "G1", day := "MON",
                    time := "0830", venue := "LT1" }] }
    (by decide) (by decide) (by decide)

/-- C9 counterexample: an 8-cell continuation row (empty leading cell) whose
class-type cell is also empty contributes *no* meeting — the row loop guards
the append with `if current_index and class_type:` — refuting the claim that
every ≥8-cell continuation row contributes exactly one meeting entry. -/
theorem C9_counterexample :
    (["", "", "", "", "", "", "", ""] : List String).length = 8
    ∧ isNewIndexCell (cellText ["", "", "", "", "", "", "", ""] 0) = false
    ∧ processRow [{ index := "10001", vacancy := 5, waitlist := 0, classes := [] }]
        ["", "", "", "", "", "", "", ""]
      = [{ index := "10001", vacancy := 5, waitlist := 0, classes := [] }]
    ∧ ¬ (totalMeetings (processRow
            [{ index := "10001", vacancy := 5, waitlist := 0, classes := [] }]
            ["", "", "", "", "", "", "", ""])
          = totalMeetings [{ index := "10001", vacancy := 5, waitlist := 0, classes := [] }]
            + 1) := by
  exact ⟨by decide, by decide, by decide, by decide⟩

/-- C9 amended: a row with at least eight cells and an empty leading cell
contributes exactly one meeting — appended to the most recently opened
section — *provided* its class-type cell (cell 3) is non-empty and a section
is already open; with an empty class-type cell, or before any header row, it
contributes nothing; rows with fewer than eight cells are skipped without
error. -/
theorem C9_continuation_amended :
    ∀ (acc : List IndexInfo) (row : List String),
      (row.length < 8 → processRow acc row = acc)
      ∧ (8 ≤ row.length → isNewIndexCell (cellText row 0) = false →
          ((cellText row 3 = "" ∨ acc = []) → processRow acc row = acc)
          ∧ (cellText row 3 ≠ "" → ∀ (rest : List IndexInfo) (last : IndexInfo),
              acc = rest ++ [last] →
              processRow acc row
                = rest ++ [{ last with classes := last.classes ++ [rowClass row] }])) := by
  intro acc row
  constructor
  · intro hlen
    unfold processRow
    rw [if_pos hlen]
  · intro hlen hnew
    have hlen' : ¬ row.length < 8 := by omega
    constructor
    · intro hdone
      unfold processRow
      rw [if_neg hlen']
      simp only [hnew, Bool.false_eq_true, if_false]
      rcases hdone with hct | rfl
      · rw [if_neg (fun hcl => hcl.2 hct)]
      · rw [if_neg (fun hcl => hcl.1 rfl)]
    · intro hct rest last hacc
      unfold processRow
      rw [if_neg hlen']
      simp only [hnew, Bool.false_eq_true, if_false]
      rw [if_pos ⟨by simp [hacc], hct⟩]
      subst hacc
      unfold appendClassToLast
      rw [List.getLast?_concat, List.dropLast_concat]

/-- Witness for the amended C9: a continuation row with a non-empty class
type appends its meeting to the already open section. -/
theorem C9_continuation_amended_witness :
    processRow [{ index := "10001", vacancy := 5, waitlist := 0, classes := [] }]
        ["", "", "", "TUT", "G2", "TUE", "0930", "TR5"]
      = [{ index := "10001", vacancy := 5, waitlist := 0,
           classes := [{ type := "TUT", group := "G2", day := "TUE",
                         time := "0930", venue := "TR5" }] }] := by
  rw [((C9_continuation_amended
      [{ index := "10001", vacancy := 5, waitlist := 0, classes := [] }]
      ["", "", "", "TUT", "G2", "TUE", "0930", "TR5"]).2
    (by decide) (by decide)).2 (by decide) []
    { index := "10001", vacancy := 5, waitlist := 0, classes := [] } rfl]
  decide

/-- C10: a header row (non-empty leading cell) with a non-empty class-type
cell opens a new section whose first meeting comes from the header row
itself; and a continuation row arriving before any header row (no section
open yet) contributes nothing and causes no error. -/
theorem C10_header_meeting :
    ∀ (acc : List IndexInfo) (row : List String),
      (8 ≤ row.length → isNewIndexCell (cellText row 0) = true → cellText row 3 ≠ "" →
        processRow acc row = acc ++ [{ newSection row with classes := [rowClass row] }])
      ∧ (isNewIndexCell (cellText row 0) = false → processRow [] row = []) := by
  intro acc row
  constructor
  · intro hlen hnew hct
    unfold processRow
    rw [if_neg (by omega)]
    simp only [hnew, if_true]
    rw [if_pos ⟨by simp, hct⟩]
    unfold appendClassToLast
    rw [List.getLast?_concat, List.dropLast_concat]
    simp [newSection]
  · intro hnew
    unfold processRow
    by_cases hlen : row.length < 8
    · rw [if_pos hlen]
    · rw [if_neg hlen]
      simp only [hnew, Bool.false_eq_true, if_false]
      rw [if_neg (fun hcl => hcl.1 rfl)]

/-- Witness for C10: a header row creates its section with its own meeting;
a continuation row with no open section is a no-op. -/
theorem C10_header_meeting_witness :
    processRow [] ["10001", "5", "2", "LEC", "G1", "MON", "0830", "LT1"]
      = [{ index := "10001", vacancy := 5, waitlist := 2,
           classes := [{ type := "LEC", group := "G1", day := "MON",
                         time := "0830", venue := "LT1" }] }]
    ∧ processRow [] ["", "", "", "TUT", "G2", "TUE", "0930", "TR5"] = [] := by
  constructor
  · rw [(C10_header_meeting [] ["10001", "5", "2", "LEC", "G1", "MON", "0830", "LT1"]).1
      (by decide) (by decide) (by decide)]
    decide
  · exact (C10_header_meeting [] ["", "", "", "TUT", "G2", "TUE", "0930", "TR5"]).2 (by decide)

end VacancyAlert
